import Mathlib

/-
Verification development for the Solar-System-Generator repository.

The repository is JavaScript.  We embed the relevant code shallowly:

* JS runtime values that the code manipulates (numbers, strings, `null`,
  `undefined`, and `NaN`) are modelled by the inductive type `JsVal`.
  JS numbers are modelled as exact real numbers; the claims under study are
  structural (which branch runs, which field is set, which strings are
  appended), not about floating-point rounding.
* `Math.sqrt`, `Math.pow`, `Math.cbrt` are modelled with `Real.sqrt` and
  real exponentiation, including the JS coercions (`null` coerces to `0`,
  `undefined` coerces to `NaN`) and the NaN results on negative arguments.
  Because real comparisons are not computably decidable, the definitions
  live in a `noncomputable section` with classical decidability; concrete
  runs are evaluated in proofs by `simp`.
* In-place mutation of `Planet` objects becomes explicit state passing:
  each fix-up returns the updated planet.
* `Math.random()` becomes an explicit real parameter.
* The undefined identifier `pow` in `fixPeriodAndAxis` (the source calls
  `pow(Math.PI, 2)` where only `Math.pow` exists) raises a JS
  `ReferenceError`; fallible code therefore returns `Except JsErr _` or
  pairs the post-mutation state with an optional error.
* The THREE.js geometry built by `getPlanetOrbits` (materials, curves,
  `planet.orbitEllipse`) is rendering output, outside the modelled core;
  only the observable effect of `getPlanetOrbits` on `Planet` state that
  the repository itself reads (the `assumptions` strings) is modelled.
-/

namespace SolarGen

open Classical

noncomputable section

/-- JS runtime values occurring in the repository: numbers (modelled as exact
reals), `NaN`, strings, `null`, and `undefined`. -/
inductive JsVal where
  | num (x : ℝ)
  | nan
  | str (s : String)
  | null
  | undef

/-- JS `ToNumber` coercion restricted to the values the repository feeds into
arithmetic: numbers stay themselves, `null` coerces to `0`, and `undefined` and
`NaN` coerce to NaN (`none`).  The repository never feeds strings into
arithmetic on the paths under study; a string is mapped to NaN like any other
non-numeric value. -/
def toNumber : JsVal → Option ℝ
  | .num x => some x
  | .null => some 0
  | _ => none

/-- The real number held by a `JsVal`, defaulting to `0`; used only to state
properties under a hypothesis that the value is a number. -/
def JsVal.numOr0 : JsVal → ℝ
  | .num x => x
  | _ => 0

/-- JS `+` on the numeric values the code adds (star masses); a non-numeric
operand yields NaN.  (JS would concatenate if an operand were a string; the
summed fields are numbers or null in the data model, and the claims assume
numeric masses.) -/
def jsAdd (a b : JsVal) : JsVal :=
  match toNumber a, toNumber b with
  | some x, some y => .num (x + y)
  | _, _ => .nan

/-- JS `*` with ToNumber coercion. -/
def jsMul (a b : JsVal) : JsVal :=
  match toNumber a, toNumber b with
  | some x, some y => .num (x * y)
  | _, _ => .nan

/-- JS `-` with ToNumber coercion. -/
def jsSub (a b : JsVal) : JsVal :=
  match toNumber a, toNumber b with
  | some x, some y => .num (x - y)
  | _, _ => .nan

/-- JS `/` with ToNumber coercion.  The only division in the modelled code has
the nonzero constant `4 * Math.PI ** 2` as divisor; division by zero (which JS
maps to ±Infinity or NaN) is mapped to NaN here and never reached. -/
def jsDiv (a b : JsVal) : JsVal :=
  match toNumber a, toNumber b with
  | some x, some y => if y = 0 then .nan else .num (x / y)
  | _, _ => .nan

/-- `Math.pow` with ToNumber coercion: NaN on non-numeric arguments and on a
negative base with a non-integral exponent, otherwise real exponentiation. -/
def mathPow (a b : JsVal) : JsVal :=
  match toNumber a, toNumber b with
  | some x, some y => if x < 0 ∧ ∀ n : ℤ, (n : ℝ) ≠ y then .nan else .num (x ^ y)
  | _, _ => .nan

/-- `Math.sqrt` with ToNumber coercion: NaN on non-numeric or negative input. -/
def mathSqrt (a : JsVal) : JsVal :=
  match toNumber a with
  | some x => if x < 0 then .nan else .num (Real.sqrt x)
  | none => .nan

/-- `Math.cbrt` with ToNumber coercion (odd real cube root). -/
def mathCbrt (a : JsVal) : JsVal :=
  match toNumber a with
  | some x => if 0 ≤ x then .num (x ^ ((1 : ℝ) / 3)) else .num (-((-x) ^ ((1 : ℝ) / 3)))
  | none => .nan

/-- JS `<` on the values compared in the code: numeric comparison after
ToNumber, false when either side coerces to NaN (so `undefined < c` is
false, as in JS). -/
def jsLt (a b : JsVal) : Prop :=
  match toNumber a, toNumber b with
  | some x, some y => x < y
  | _, _ => False

/-- JS loose equality with `null` (`x == null`): true exactly for `null` and
`undefined`. -/
def jsLooseNull : JsVal → Prop
  | .null => True
  | JsVal.undef => True
  | _ => False

/-- JS truthiness: `0`, NaN, the empty string, `null` and `undefined` are
falsy; every other value here is truthy. -/
def jsTruthy : JsVal → Prop
  | .num x => x ≠ 0
  | .str s => s ≠ ""
  | _ => False

/-- JS strict equality `===` on `JsVal`: equal values of the same shape,
except that NaN is not strictly equal to anything (including itself). -/
def jsStrictEq (a b : JsVal) : Prop := a = b ∧ a ≠ .nan

/-- JS errors thrown by the modelled code: the `ReferenceError` from the
undefined identifier `pow` in `fixPeriodAndAxis`, and the `TypeError` from
calling `.push` on `undefined` (or indexing `undefined`) in
`getObjectLists`. -/
inductive JsErr where
  | referenceError
  | typeError
deriving DecidableEq

/-- `Star` (src/Star.mjs): plain field projections from a raw record. -/
structure Star where
  systemName : JsVal
  hostName : JsVal
  stellarRadius : JsVal
  stellarMass : JsVal
  stellarDensity : JsVal
  ra : JsVal
  dec : JsVal
  systemDistance : JsVal

/-- The `Star` constructor (src/Star.mjs): `data` is the raw record, read as a
total map from field names to values, absent keys reading as `undefined`. -/
def makeStar (data : String → JsVal) : Star where
  systemName := data "sy_name"
  hostName := data "hostname"
  stellarRadius := data "st_rad"
  stellarMass := data "st_mass"
  stellarDensity := data "st_dens"
  ra := data "ra"
  dec := data "dec"
  systemDistance := data "sy_dist"

/-- `Planet` (src/Planet.mjs).  `orbitEllipse` (THREE.js geometry attached by
`getPlanetOrbits`) is rendering output and not modelled. -/
structure Planet where
  name : JsVal
  hostName : JsVal
  orbitalPeriod : JsVal
  semiMajorAxis : JsVal
  radius : JsVal
  mass : JsVal
  density : JsVal
  orbitalEccentricity : JsVal
  orbitalInclination : JsVal
  ra : JsVal
  dec : JsVal
  orbitBinary : JsVal
  numMoons : JsVal
  semiMinorAxis : JsVal
  assumptions : List String

/-- `Planet.fixMassRadius` (src/Planet.mjs).  `rand` is the value returned by
`Math.random()` in the both-missing branch.  Note the first branch tests
strict equality with `null` while the other two use loose `== null`. -/
def fixMassRadius (p : Planet) (rand : ℝ) : Planet :=
  if p.radius = .null ∧ p.mass = .null then
    let m : JsVal := .num (rand * 3 + 0.005)
    { p with
      mass := m
      radius := mathPow m (.num 0.55)
      assumptions := p.assumptions ++ ["Missing mass and radius"] }
  else if jsLooseNull p.radius then
    { p with
      radius :=
        if jsLt p.mass (.num (120 / 308)) then mathPow p.mass (.num 0.55)
        else mathPow p.mass (.num 0.03)
      assumptions := p.assumptions ++ ["Missing radius"] }
  else if jsLooseNull p.mass then
    { p with
      mass := mathPow p.radius (.num (1 / 0.55))
      assumptions := p.assumptions ++ ["Missing mass"] }
  else p

/-- The `Planet` constructor (src/Planet.mjs): field projections, the
semi-minor-axis formula
`semiMajorAxis * Math.sqrt(1 - Math.pow(orbitalEccentricity, 2))`, an empty
`assumptions` list, then `fixMassRadius`. -/
def makePlanet (data : String → JsVal) (rand : ℝ) : Planet :=
  fixMassRadius
    { name := data "pl_name"
      hostName := data "hostname"
      orbitalPeriod := data "pl_orbper"
      semiMajorAxis := data "pl_orbsmax"
      radius := data "pl_radj"
      mass := data "pl_bmassj"
      density := data "pl_dens"
      orbitalEccentricity := data "pl_orbeccen"
      orbitalInclination := data "pl_orbincl"
      ra := data "ra"
      dec := data "dec"
      orbitBinary := data "cb_flag"
      numMoons := data "sy_mnum"
      semiMinorAxis :=
        jsMul (data "pl_orbsmax")
          (mathSqrt (jsSub (.num 1) (mathPow (data "pl_orbeccen") (.num 2))))
      assumptions := [] }
    rand

/-- `PlanetarySystem` (src/PlanetarySystem.mjs) as a value: member stars,
direct planets, the optional sub-system list (`null` in JS becomes `none`),
and the `totalStarMass` field stored by the constructor. -/
inductive PSystem where
  | mk (stars : List Star) (planets : List Planet) (subSystems : Option (List PSystem))
      (totalStarMass : JsVal)

/-- Member stars of a system. -/
def PSystem.stars : PSystem → List Star
  | .mk st _ _ _ => st

/-- Direct planets of a system. -/
def PSystem.planets : PSystem → List Planet
  | .mk _ pl _ _ => pl

/-- The `subSystems` field of a system. -/
def PSystem.subSystems : PSystem → Option (List PSystem)
  | .mk _ _ subs _ => subs

/-- The `totalStarMass` field stored at construction. -/
def PSystem.totalStarMass : PSystem → JsVal
  | .mk _ _ _ m => m

/-- The sub-system list, with JS `null` read as the empty list. -/
def subsListD : Option (List PSystem) → List PSystem
  | none => []
  | some l => l

/-- `getStarMass` (src/PlanetarySystem.mjs): fold `+=` over the member stars'
`stellarMass`, then — when `subSystems` is not `null` — over the sub-systems'
stored `totalStarMass`. -/
def getStarMass (stars : List Star) (subs : Option (List PSystem)) : JsVal :=
  let m := stars.foldl (fun acc s => jsAdd acc s.stellarMass) (.num 0)
  match subs with
  | none => m
  | some l => l.foldl (fun acc c => jsAdd acc c.totalStarMass) m

/-- The gravitational constant of `fixPeriodAndAxis`:
`G = 6.67 * Math.pow(10, -11)`. -/
def gravG : ℝ := 6.67 * (10 : ℝ) ^ (-11 : ℤ)

/-- One iteration of the `fixPeriodAndAxis` loop (src/PlanetarySystem.mjs) on
one planet, with `M` the system's `totalStarMass` and `rand` the
`Math.random()` draw.  Returns the planet state after the branch ran together
with the error, if any:

* both period and semi-major axis are `=== 0`: the axis is assigned
  `Math.random() * 0.15 + 0.1`, then the next statement evaluates
  `pow(Math.PI, 2)` — `pow` is not a defined identifier (only `Math.pow`
  is), so a `ReferenceError` is thrown before the period is assigned and
  before any assumption string is pushed;
* only the period is `=== 0`: the same `pow(Math.PI, 2)` is evaluated at
  once, so a `ReferenceError` is thrown with the planet unchanged;
* only the semi-major axis is `=== 0`: the axis is derived via
  `164 * Math.cbrt((G * M * Math.pow(period, 2)) / (4 * Math.pow(Math.PI, 2)))`
  and the string "Missing orbital period" is pushed;
* otherwise the planet is untouched. -/
def fixPlanetPA (M : JsVal) (rand : ℝ) (p : Planet) : Planet × Option JsErr :=
  if p.orbitalPeriod = .num 0 ∧ p.semiMajorAxis = .num 0 then
    ({ p with semiMajorAxis := .num (rand * 0.15 + 0.1) }, some .referenceError)
  else if p.orbitalPeriod = .num 0 then
    (p, some .referenceError)
  else if p.semiMajorAxis = .num 0 then
    ({ p with
        semiMajorAxis :=
          jsMul (.num 164)
            (mathCbrt (jsDiv (jsMul (jsMul (.num gravG) M) (mathPow p.orbitalPeriod (.num 2)))
              (.num (4 * Real.pi ^ 2))))
        assumptions := p.assumptions ++ ["Missing orbital period"] }, none)
  else (p, none)

/-- `fixPeriodAndAxis` over the planet list: the loop stops at the first
thrown error, which propagates out of the constructor. -/
def fixPAList (M : JsVal) (rand : ℝ) : List Planet → Except JsErr (List Planet)
  | [] => .ok []
  | p :: ps =>
    match fixPlanetPA M rand p with
    | (_, some e) => .error e
    | (p', none) =>
      match fixPAList M rand ps with
      | .error e => .error e
      | .ok ps' => .ok (p' :: ps')

/-- One iteration of the `getPlanetOrbits` loop (src/PlanetarySystem.mjs) on
one planet, restricted to its effect on `Planet` state (the THREE.js ellipse
stored in `orbitEllipse` is rendering output): with both `semiMajorAxis` and
`orbitalEccentricity` loosely non-null nothing is recorded; otherwise with a
loosely non-null `orbitalPeriod` the string "Assumed circular orbit" is
pushed; otherwise "Assumed circular orbit with random radius" is pushed. -/
def orbitPlanet (p : Planet) : Planet :=
  if ¬jsLooseNull p.semiMajorAxis ∧ ¬jsLooseNull p.orbitalEccentricity then p
  else if ¬jsLooseNull p.orbitalPeriod then
    { p with assumptions := p.assumptions ++ ["Assumed circular orbit"] }
  else
    { p with assumptions := p.assumptions ++ ["Assumed circular orbit with random radius"] }

/-- The `PlanetarySystem` constructor: store the fields, compute
`totalStarMass` via `getStarMass`, then run `fixPeriodAndAxis` (which may
throw) and `getPlanetOrbits` over the direct planets. -/
def mkSystem (rand : ℝ) (stars : List Star) (planets : List Planet)
    (subs : Option (List PSystem)) : Except JsErr PSystem :=
  let M := getStarMass stars subs
  match fixPAList M rand planets with
  | .error e => .error e
  | .ok ps => .ok (.mk stars (ps.map orbitPlanet) subs M)

/-- The single-star test of `constructSystem`:
`planet.hostName === star.hostName && planet.orbitBinary === 0`. -/
def isSingleOf (s : Star) (p : Planet) : Prop :=
  jsStrictEq p.hostName s.hostName ∧ p.orbitBinary = .num 0

/-- The circumbinary test of `constructSystem`:
`planet.hostName === star.hostName && planet.orbitBinary` (truthy). -/
def isBinaryOf (s : Star) (p : Planet) : Prop :=
  jsStrictEq p.hostName s.hostName ∧ jsTruthy p.orbitBinary

/-- The star loop of `constructSystem`: for each star in order, collect its
single-star planets and the circumbinary planets it matches; a star with at
least one single-star planet becomes a sub-system (built at once, so a thrown
constructor error propagates here), otherwise a lone star.  Returns
`(subSystems, binaryPlanets, loneStars)` in push order. -/
def gather (rand : ℝ) (planets : List Planet) :
    List Star → Except JsErr (List PSystem × List Planet × List Star)
  | [] => .ok ([], [], [])
  | s :: rest =>
    let starPlanets := planets.filter fun p => decide (isSingleOf s p)
    let newBin := planets.filter fun p => decide (isBinaryOf s p)
    if starPlanets.length ≠ 0 then
      match mkSystem rand [s] starPlanets none with
      | .error e => .error e
      | .ok sub =>
        match gather rand planets rest with
        | .error e => .error e
        | .ok (su, bi, lo) => .ok (sub :: su, newBin ++ bi, lo)
    else
      match gather rand planets rest with
      | .error e => .error e
      | .ok (su, bi, lo) => .ok (su, newBin ++ bi, s :: lo)

/-- `PlanetarySystem.constructSystem` (src/PlanetarySystem.mjs): run the star
loop, then — when `binaryPlanets.length || loneStars.length ||
subSystems.length > 0` — build and return the top-level system; otherwise all
three collections are empty and the code returns `subSystems[0]`, which is
JS `undefined` (`none` here). -/
def constructSystem (rand : ℝ) (stars : List Star) (planets : List Planet) :
    Except JsErr (Option PSystem) :=
  match gather rand planets stars with
  | .error e => .error e
  | .ok (subs, bins, lones) =>
    if bins.length ≠ 0 ∨ lones.length ≠ 0 ∨ subs.length > 0 then
      match mkSystem rand lones bins (some subs) with
      | .error e => .error e
      | .ok top => .ok (some top)
    else .ok none

mutual
/-- All planets stored anywhere in a system tree: the direct planets followed
by the planets of the sub-systems, in order. -/
def treePlanets : PSystem → List Planet
  | .mk _ pl none _ => pl
  | .mk _ pl (some subs) _ => pl ++ treePlanetsList subs

/-- Planets of a list of system trees, in order. -/
def treePlanetsList : List PSystem → List Planet
  | [] => []
  | c :: cs => treePlanets c ++ treePlanetsList cs
end

/-- Number of planets in a list carrying a given `name` value. -/
def countName (n : JsVal) (l : List Planet) : ℕ :=
  l.countP fun q => decide (q.name = n)

/-- All stellar masses in a star list are numbers. -/
def allMassesNum (stars : List Star) : Prop :=
  ∀ s ∈ stars, ∃ x : ℝ, s.stellarMass = .num x

/-- The recursive mass invariant of the spec: at every node of the tree, the
stored `totalStarMass` is the number obtained as the sum of the direct member
stars' masses plus the sum of the sub-systems' stored `totalStarMass`. -/
inductive MassInv : PSystem → Prop where
  | intro (st : List Star) (pl : List Planet) (subs : Option (List PSystem)) (m : JsVal) :
      (∀ c ∈ subsListD subs, MassInv c) →
      m = .num ((st.map fun s => s.stellarMass.numOr0).sum
          + ((subsListD subs).map fun c => c.totalStarMass.numOr0).sum) →
      MassInv (.mk st pl subs m)

/-- A raw catalog row: a JS object modelled as its ordered key/value entries
(`Object.keys` order is insertion order; keys of an actual JS object are
distinct, which theorems assume via `List.Nodup`). -/
def Row := List (String × JsVal)

/-- JS property read `row[k]`: the value at the first matching key, or
`undefined` when the key is absent. -/
def rowGet (row : Row) (k : String) : JsVal :=
  match row.find? fun kv => kv.1 == k with
  | some kv => kv.2
  | none => JsVal.undef

/-- `Object.keys(row)` in insertion order. -/
def rowKeys (row : Row) : List String := row.map Prod.fst

/-- A group object built by `getObjectLists`: each key holds the array of
collected values. -/
def GRow := List (String × List JsVal)

/-- JS property read on a group object, `none` when the key is absent. -/
def groupGet (g : GRow) (k : String) : Option (List JsVal) :=
  match g.find? fun kv => kv.1 == k with
  | some kv => some kv.2
  | none => none

/-- `objectList[k].push(v)`: append `v` to the array at key `k`; when the key
is absent, `objectList[k]` is `undefined` and `.push` throws a `TypeError`
(`none` here). -/
def pushKey (g : GRow) (k : String) (v : JsVal) : Option GRow :=
  match g with
  | [] => none
  | (k', vs) :: rest =>
    if k' = k then some ((k', vs ++ [v]) :: rest)
    else
      match pushKey rest k v with
      | none => none
      | some rest' => some ((k', vs) :: rest')

/-- `keys.forEach((element) => objectList[element].push(object[element]))`
over the listed keys, left to right. -/
def pushRowKeys (row : Row) : List String → GRow → Option GRow
  | [], g => some g
  | k :: ks, g =>
    match pushKey g k (rowGet row k) with
    | none => none
    | some g' => pushRowKeys row ks g'

/-- Push one row's values into a group object, one key of the row at a time. -/
def pushRow (g : GRow) (row : Row) : Option GRow := pushRowKeys row (rowKeys row) g

/-- The fresh group object built for a new identifier:
`newObject[element] = [object[element]]` for each key of the row, in order. -/
def newGroup (row : Row) : GRow := (rowKeys row).map fun k => (k, [rowGet row k])

/-- The inner `for (const objectList of dataLists)` loop of `getObjectLists`:
for every group object in order, read `objectList[identifier][0]` (a
`TypeError` when the group has no identifier key) and push the row's values
into each group whose name is `===` the row's identifier value. -/
def pushMatching (idf : String) (objectName : JsVal) (row : Row) :
    List GRow → Except JsErr (List GRow)
  | [] => .ok []
  | g :: gs =>
    match groupGet g idf with
    | none => .error .typeError
    | some vs =>
      if jsStrictEq objectName (vs.headD JsVal.undef) then
        match pushRow g row with
        | none => .error .typeError
        | some g' =>
          match pushMatching idf objectName row gs with
          | .error e => .error e
          | .ok gs' => .ok (g' :: gs')
      else
        match pushMatching idf objectName row gs with
        | .error e => .error e
        | .ok gs' => .ok (g :: gs')

/-- One iteration of the outer loop of `getObjectLists` on the state
`(dataLists, storedObjectNames)`: a row whose identifier value is `===` to no
stored name appends a fresh group and its name; otherwise the row is pushed
into the matching group(s). -/
def golStep (idf : String) (st : List GRow × List JsVal) (row : Row) :
    Except JsErr (List GRow × List JsVal) :=
  let objectName := rowGet row idf
  if ∃ e ∈ st.2, jsStrictEq objectName e then
    match pushMatching idf objectName row st.1 with
    | .error e => .error e
    | .ok gs => .ok (gs, st.2)
  else .ok (st.1 ++ [newGroup row], st.2 ++ [objectName])

/-- The outer loop of `getObjectLists` over the rows. -/
def golAux (idf : String) : List Row → List GRow × List JsVal →
    Except JsErr (List GRow × List JsVal)
  | [], st => .ok st
  | row :: rest, st =>
    match golStep idf st row with
    | .error e => .error e
    | .ok st' => golAux idf rest st'

/-- `getObjectLists` (src/unnamed/part_000): group the rows by their
identifier value, starting from empty `dataLists` and `storedObjectNames`,
returning the final `dataLists` (or the thrown `TypeError`). -/
def getObjectLists (rows : List Row) (idf : String) : Except JsErr (List GRow) :=
  match golAux idf rows ([], []) with
  | .error e => .error e
  | .ok st => .ok st.1

/-- Spec-side description of one finished group: the keys are those of the
group's first row, and the array at key `k` collects, in order, the values of
exactly those of the group's rows that contain `k` — a row lacking `k`
contributes nothing (no `null` placeholder). -/
def buildGroup : List Row → GRow
  | [] => []
  | r0 :: rest =>
    (rowKeys r0).map fun k =>
      (k, ((r0 :: rest).filter fun r => decide (k ∈ rowKeys r)).map fun r => rowGet r k)

/-- The distinct identifier values of the rows, in first-seen order. -/
def idsInOrder (idf : String) (rows : List Row) : List JsVal :=
  rows.foldl (fun acc r => if rowGet r idf ∈ acc then acc else acc ++ [rowGet r idf]) []

/-- The rows of the group keyed by identifier value `v`, in order. -/
def groupRows (idf : String) (v : JsVal) (rows : List Row) : List Row :=
  rows.filter fun r => decide (rowGet r idf = v)

/-! ### Helper lemmas -/

theorem fixMR_semiMinor (p : Planet) (r : ℝ) :
    (fixMassRadius p r).semiMinorAxis = p.semiMinorAxis := by
  unfold fixMassRadius
  split_ifs <;> rfl

theorem mathPow_two (e : ℝ) : mathPow (.num e) (.num 2) = .num (e ^ 2) := by
  simp only [mathPow, toNumber]
  rw [if_neg]
  · norm_num
  · rintro ⟨-, hall⟩
    exact hall 2 (by norm_num)

theorem fixPlanetPA_snd (M : JsVal) (r : ℝ) (p : Planet) :
    (fixPlanetPA M r p).2 = none ∨ (fixPlanetPA M r p).2 = some .referenceError := by
  unfold fixPlanetPA
  split_ifs <;> simp

theorem fixPlanetPA_period0 (M : JsVal) (r : ℝ) (p : Planet)
    (h : p.orbitalPeriod = .num 0) :
    (fixPlanetPA M r p).2 = some .referenceError ∧
      (fixPlanetPA M r p).1.orbitalPeriod = p.orbitalPeriod ∧
      (fixPlanetPA M r p).1.assumptions = p.assumptions := by
  unfold fixPlanetPA
  by_cases h2 : p.semiMajorAxis = .num 0 <;> simp [h, h2]

theorem fixPlanetPA_ok_period (M : JsVal) (r : ℝ) (p : Planet)
    (h : (fixPlanetPA M r p).2 = none) : p.orbitalPeriod ≠ .num 0 := by
  intro h0
  rw [(fixPlanetPA_period0 M r p h0).1] at h
  exact Option.noConfusion h

theorem fixPlanetPA_name (M : JsVal) (r : ℝ) (p : Planet) :
    (fixPlanetPA M r p).1.name = p.name := by
  unfold fixPlanetPA
  split_ifs <;> rfl

theorem orbitPlanet_name (p : Planet) : (orbitPlanet p).name = p.name := by
  unfold orbitPlanet
  split_ifs <;> rfl

theorem fixPAList_error_of_period0 (M : JsVal) (r : ℝ) (ps : List Planet) (p : Planet)
    (hp : p ∈ ps) (h0 : p.orbitalPeriod = .num 0) :
    fixPAList M r ps = .error .referenceError := by
  induction ps with
  | nil => cases hp
  | cons q rest ih =>
    rcases List.mem_cons.1 hp with heq | hmem
    · rcases hq : fixPlanetPA M r q with ⟨q', eo⟩
      have h2 := (fixPlanetPA_period0 M r q (heq ▸ h0)).1
      rw [hq] at h2
      have h3 : eo = some .referenceError := h2
      subst h3
      simp [fixPAList, hq]
    · rcases hq : fixPlanetPA M r q with ⟨q', eo⟩
      cases eo with
      | some e =>
        rcases fixPlanetPA_snd M r q with hn | hs
        · rw [hq] at hn
          exact Option.noConfusion hn
        · rw [hq] at hs
          have hs' : e = .referenceError := by
            injection hs
          subst hs'
          simp [fixPAList, hq]
      | none =>
        simp [fixPAList, hq, ih hmem]

theorem foldl_jsAdd_num {α : Type} (g : α → JsVal) (l : List α)
    (h : ∀ a ∈ l, ∃ x : ℝ, g a = .num x) (c : ℝ) :
    l.foldl (fun acc a => jsAdd acc (g a)) (.num c) =
      .num (c + (l.map fun a => (g a).numOr0).sum) := by
  induction l generalizing c with
  | nil => simp
  | cons a rest ih =>
    obtain ⟨x, hx⟩ := h a (List.mem_cons_self a rest)
    have hrest : ∀ b ∈ rest, ∃ x : ℝ, g b = .num x := fun b hb => h b (List.mem_cons_of_mem a hb)
    simp only [List.foldl_cons, List.map_cons, List.sum_cons]
    rw [hx]
    show List.foldl (fun acc a => jsAdd acc (g a)) (jsAdd (.num c) (.num x)) rest = _
    rw [show jsAdd (.num c) (.num x) = .num (c + x) from rfl, ih hrest]
    simp only [JsVal.numOr0]
    congr 1
    ring

theorem getStarMass_num (stars : List Star) (subs : Option (List PSystem))
    (h1 : allMassesNum stars)
    (h2 : ∀ c ∈ subsListD subs, ∃ x : ℝ, c.totalStarMass = .num x) :
    getStarMass stars subs =
      .num ((stars.map fun s => s.stellarMass.numOr0).sum
        + ((subsListD subs).map fun c => c.totalStarMass.numOr0).sum) := by
  unfold getStarMass
  cases subs with
  | none =>
    simp only [subsListD, List.map_nil, List.sum_nil]
    rw [foldl_jsAdd_num (fun s => s.stellarMass) stars (fun s hs => h1 s hs) 0]
    congr 1
    ring
  | some l =>
    simp only [subsListD] at h2 ⊢
    rw [foldl_jsAdd_num (fun s => s.stellarMass) stars (fun s hs => h1 s hs) 0,
      foldl_jsAdd_num (fun c => c.totalStarMass) l h2]
    congr 1
    ring

theorem mkSystem_ok_shape (rand : ℝ) (stars : List Star) (planets : List Planet)
    (subs : Option (List PSystem)) (sys : PSystem)
    (h : mkSystem rand stars planets subs = .ok sys) :
    ∃ ps', fixPAList (getStarMass stars subs) rand planets = .ok ps' ∧
      sys = .mk stars (ps'.map orbitPlanet) subs (getStarMass stars subs) := by
  simp only [mkSystem] at h
  rcases hfix : fixPAList (getStarMass stars subs) rand planets with e | ps'
  · rw [hfix] at h
    exact Except.noConfusion h
  · rw [hfix] at h
    refine ⟨ps', rfl, ?_⟩
    injection h with h'
    exact h'.symm

theorem gather_ok_facts (rand : ℝ) (planets : List Planet) (stars : List Star)
    (subs : List PSystem) (bins : List Planet) (lones : List Star)
    (hg : gather rand planets stars = .ok (subs, bins, lones))
    (hm : allMassesNum stars) :
    (∀ c ∈ subs, MassInv c ∧ ∃ x : ℝ, c.totalStarMass = .num x) ∧ allMassesNum lones := by
  induction stars generalizing subs bins lones with
  | nil =>
    simp only [gather, Except.ok.injEq, Prod.mk.injEq] at hg
    obtain ⟨rfl, rfl, rfl⟩ := hg
    exact ⟨fun c hc => absurd hc (List.not_mem_nil c), fun t ht => absurd ht (List.not_mem_nil t)⟩
  | cons s rest ih =>
    have hmrest : allMassesNum rest := fun b hb => hm b (List.mem_cons_of_mem s hb)
    simp only [gather] at hg
    by_cases hc : (planets.filter fun p => decide (isSingleOf s p)).length ≠ 0
    · rw [if_pos hc] at hg
      rcases hms : mkSystem rand [s] (planets.filter fun p => decide (isSingleOf s p)) none
        with e | sub
      · rw [hms] at hg
        exact Except.noConfusion hg
      · rw [hms] at hg
        rcases hgr : gather rand planets rest with e | ⟨su, bi, lo⟩
        · rw [hgr] at hg
          exact Except.noConfusion hg
        · rw [hgr] at hg
          simp only [Except.ok.injEq, Prod.mk.injEq] at hg
          obtain ⟨rfl, rfl, rfl⟩ := hg
          obtain ⟨ihsubs, ihlones⟩ := ih su bi lo hgr hmrest
          refine ⟨?_, ihlones⟩
          intro c hcmem
          rcases List.mem_cons.1 hcmem with rfl | hmem
          · obtain ⟨ps', hfix, rfl⟩ := mkSystem_ok_shape _ _ _ _ _ hms
            have hsm := getStarMass_num [s] none
              (fun t ht => by
                rcases List.mem_singleton.1 ht with rfl
                exact hm t (List.mem_cons_self t rest))
              (by simp [subsListD])
            refine ⟨MassInv.intro _ _ _ _ (by simp [subsListD]) hsm, ?_⟩
            exact ⟨_, by simp only [PSystem.totalStarMass]; rw [hsm]⟩
          · exact ihsubs c hmem
    · rw [if_neg hc] at hg
      rcases hgr : gather rand planets rest with e | ⟨su, bi, lo⟩
      · rw [hgr] at hg
        exact Except.noConfusion hg
      · rw [hgr] at hg
        simp only [Except.ok.injEq, Prod.mk.injEq] at hg
        obtain ⟨rfl, rfl, rfl⟩ := hg
        obtain ⟨ihsubs, ihlones⟩ := ih su bi lo hgr hmrest
        refine ⟨ihsubs, ?_⟩
        intro t ht
        rcases List.mem_cons.1 ht with rfl | hmem
        · exact hm t (List.mem_cons_self t rest)
        · exact ihlones t hmem

theorem countP_one_and {α : Type} {l : List α} {g f : α → Bool} {a : α}
    (h1 : l.countP g = 1) (ha : a ∈ l) (hg : g a = true) :
    l.countP (fun x => g x && f x) = if f a then 1 else 0 := by
  induction l with
  | nil => cases ha
  | cons b t ih =>
    rw [List.countP_cons] at h1 ⊢
    by_cases hb : g b = true
    · rw [if_pos hb] at h1
      have h0 : t.countP g = 0 := by omega
      have hand : t.countP (fun x => g x && f x) = 0 := by
        have hle := List.countP_mono_left (l := t) (p := fun x => g x && f x) (q := g)
          (fun x _ hx => by
            simp only [Bool.and_eq_true] at hx
            exact hx.1)
        omega
      rcases List.mem_cons.1 ha with rfl | hmem
      · rw [hand]
        simp [hg]
      · exfalso
        have : 0 < t.countP g := List.countP_pos_iff.2 ⟨a, hmem, hg⟩
        omega
    · have hb' : g b = false := by
        rw [Bool.not_eq_true] at hb
        exact hb
      rw [hb'] at h1 ⊢
      simp only [Bool.false_and, if_false, Nat.add_zero] at h1 ⊢
      rcases List.mem_cons.1 ha with rfl | hmem
      · rw [hg] at hb'
        exact Bool.noConfusion hb'
      · exact ih h1 hmem

theorem sum_indicator {α : Type} (l : List α) (P : α → Prop) :
    (l.map fun a => if P a then (1:ℕ) else 0).sum = l.countP fun a => decide (P a) := by
  induction l with
  | nil => rfl
  | cons a t ih =>
    rw [List.map_cons, List.sum_cons, List.countP_cons, ih]
    by_cases h : P a
    · simp [h]
      omega
    · simp [h]

theorem fixPAList_countName (M : JsVal) (r : ℝ) (ps qs : List Planet) (n : JsVal)
    (h : fixPAList M r ps = .ok qs) : countName n qs = countName n ps := by
  induction ps generalizing qs with
  | nil =>
    simp only [fixPAList, Except.ok.injEq] at h
    subst h
    rfl
  | cons p rest ih =>
    rcases hq : fixPlanetPA M r p with ⟨p', eo⟩
    rw [fixPAList, hq] at h
    cases eo with
    | some e => exact Except.noConfusion h
    | none =>
      rcases hrest : fixPAList M r rest with e | qs'
      · rw [hrest] at h
        exact Except.noConfusion h
      · rw [hrest] at h
        injection h with h'
        subst h'
        have hname : p'.name = p.name := by
          have := fixPlanetPA_name M r p
          rw [hq] at this
          exact this
        unfold countName
        rw [List.countP_cons, List.countP_cons, hname]
        have := ih qs' hrest
        unfold countName at this
        omega

theorem countName_map_orbit (ps : List Planet) (n : JsVal) :
    countName n (ps.map orbitPlanet) = countName n ps := by
  unfold countName
  rw [List.countP_map]
  exact List.countP_congr fun q _ => by
    simp [Function.comp, orbitPlanet_name]

theorem star_indicator (planets : List Planet) (p : Planet) (s : Star)
    (h1 : countName p.name planets = 1) (hp : p ∈ planets)
    (hflag : p.orbitBinary = .num 0 ∨ jsTruthy p.orbitBinary) :
    countName p.name (planets.filter fun q => decide (isSingleOf s q)) +
      countName p.name (planets.filter fun q => decide (isBinaryOf s q)) =
      if jsStrictEq p.hostName s.hostName then 1 else 0 := by
  unfold countName at h1 ⊢
  rw [List.countP_filter, List.countP_filter,
    countP_one_and h1 hp (by simp), countP_one_and h1 hp (by simp)]
  by_cases hmatch : jsStrictEq p.hostName s.hostName
  · rcases hflag with h0 | ht
    · have hns : decide (isSingleOf s p) = true := by
        simp [isSingleOf, hmatch, h0]
      have hnb : decide (isBinaryOf s p) = false := by
        simp [isBinaryOf, h0, jsTruthy]
      rw [hns, hnb]
      simp [hmatch]
    · have h0 : p.orbitBinary ≠ .num 0 := by
        intro hz
        rw [hz] at ht
        simp [jsTruthy] at ht
      have hns : decide (isSingleOf s p) = false := by
        simp [isSingleOf, h0]
      have hnb : decide (isBinaryOf s p) = true := by
        simp [isBinaryOf, hmatch, ht]
      rw [hns, hnb]
      simp [hmatch]
  · have hns : decide (isSingleOf s p) = false := by
      simp [isSingleOf, hmatch]
    have hnb : decide (isBinaryOf s p) = false := by
      simp [isBinaryOf, hmatch]
    rw [hns, hnb]
    simp [hmatch]

theorem gather_count (rand : ℝ) (planets : List Planet) (n : JsVal) (stars : List Star)
    (subs : List PSystem) (bins : List Planet) (lones : List Star)
    (hg : gather rand planets stars = .ok (subs, bins, lones)) :
    countName n (treePlanetsList subs) + countName n bins =
      (stars.map fun s =>
        countName n (planets.filter fun p => decide (isSingleOf s p)) +
          countName n (planets.filter fun p => decide (isBinaryOf s p))).sum := by
  induction stars generalizing subs bins lones with
  | nil =>
    simp only [gather, Except.ok.injEq, Prod.mk.injEq] at hg
    obtain ⟨rfl, rfl, rfl⟩ := hg
    simp [treePlanetsList, countName]
  | cons s rest ih =>
    simp only [gather] at hg
    by_cases hc : (planets.filter fun p => decide (isSingleOf s p)).length ≠ 0
    · rw [if_pos hc] at hg
      rcases hms : mkSystem rand [s] (planets.filter fun p => decide (isSingleOf s p)) none
        with e | sub
      · rw [hms] at hg
        exact Except.noConfusion hg
      · rw [hms] at hg
        rcases hgr : gather rand planets rest with e | ⟨su, bi, lo⟩
        · rw [hgr] at hg
          exact Except.noConfusion hg
        · rw [hgr] at hg
          simp only [Except.ok.injEq, Prod.mk.injEq] at hg
          obtain ⟨rfl, rfl, rfl⟩ := hg
          obtain ⟨ps', hfix, rfl⟩ := mkSystem_ok_shape _ _ _ _ _ hms
          have hsubcount : countName n (treePlanets (.mk [s]
              (ps'.map orbitPlanet) none (getStarMass [s] none))) =
              countName n (planets.filter fun p => decide (isSingleOf s p)) := by
            show countName n (ps'.map orbitPlanet) = _
            rw [countName_map_orbit, fixPAList_countName _ _ _ _ _ hfix]
          have happ1 : countName n (treePlanetsList ((.mk [s]
              (ps'.map orbitPlanet) none (getStarMass [s] none)) :: su)) =
              countName n (treePlanets (.mk [s] (ps'.map orbitPlanet) none
                (getStarMass [s] none))) + countName n (treePlanetsList su) := by
            show countName n (_ ++ _) = _
            unfold countName
            rw [List.countP_append]
          have happ2 : countName n (planets.filter (fun p => decide (isBinaryOf s p)) ++ bi) =
              countName n (planets.filter fun p => decide (isBinaryOf s p)) +
                countName n bi := by
            unfold countName
            rw [List.countP_append]
          rw [happ1, happ2, hsubcount, List.map_cons, List.sum_cons, ← ih su bi lo hgr]
          omega
    · rw [if_neg hc] at hg
      rcases hgr : gather rand planets rest with e | ⟨su, bi, lo⟩
      · rw [hgr] at hg
        exact Except.noConfusion hg
      · rw [hgr] at hg
        simp only [Except.ok.injEq, Prod.mk.injEq] at hg
        obtain ⟨rfl, rfl, rfl⟩ := hg
        have hzero : countName n (planets.filter fun p => decide (isSingleOf s p)) = 0 := by
          have hnil : (planets.filter fun p => decide (isSingleOf s p)) = [] :=
            List.length_eq_zero.1 (by omega)
          rw [hnil]
          rfl
        have happ2 : countName n (planets.filter (fun p => decide (isBinaryOf s p)) ++ bi) =
            countName n (planets.filter fun p => decide (isBinaryOf s p)) +
              countName n bi := by
          unfold countName
          rw [List.countP_append]
        rw [happ2, List.map_cons, List.sum_cons, ← ih su bi lo hgr, hzero]
        omega

theorem mem_foldl_ids (idf : String) (v : JsVal) (rows : List Row) :
    ∀ acc : List JsVal,
      v ∈ rows.foldl
        (fun acc r => if rowGet r idf ∈ acc then acc else acc ++ [rowGet r idf]) acc ↔
      v ∈ acc ∨ ∃ r ∈ rows, rowGet r idf = v := by
  induction rows with
  | nil => intro acc; simp
  | cons r rest ih =>
    intro acc
    rw [List.foldl_cons]
    by_cases h : rowGet r idf ∈ acc
    · rw [if_pos h, ih acc]
      constructor
      · rintro (hv | ⟨r', hr', hid⟩)
        · exact Or.inl hv
        · exact Or.inr ⟨r', List.mem_cons_of_mem r hr', hid⟩
      · rintro (hv | ⟨r', hr', hid⟩)
        · exact Or.inl hv
        · rcases List.mem_cons.1 hr' with rfl | hmem
          · exact Or.inl (hid ▸ h)
          · exact Or.inr ⟨r', hmem, hid⟩
    · rw [if_neg h, ih (acc ++ [rowGet r idf])]
      simp only [List.mem_append, List.mem_singleton]
      constructor
      · rintro ((hv | hv) | ⟨r', hr', hid⟩)
        · exact Or.inl hv
        · exact Or.inr ⟨r, List.mem_cons_self r rest, hv.symm⟩
        · exact Or.inr ⟨r', List.mem_cons_of_mem r hr', hid⟩
      · rintro (hv | ⟨r', hr', hid⟩)
        · exact Or.inl (Or.inl hv)
        · rcases List.mem_cons.1 hr' with rfl | hmem
          · exact Or.inl (Or.inr hid.symm)
          · exact Or.inr ⟨r', hmem, hid⟩

theorem mem_idsInOrder (idf : String) (v : JsVal) (rows : List Row) :
    v ∈ idsInOrder idf rows ↔ ∃ r ∈ rows, rowGet r idf = v := by
  rw [idsInOrder, mem_foldl_ids]
  simp

theorem idsInOrder_append_old (idf : String) (pre : List Row) (row : Row)
    (h : rowGet row idf ∈ idsInOrder idf pre) :
    idsInOrder idf (pre ++ [row]) = idsInOrder idf pre := by
  unfold idsInOrder
  rw [List.foldl_append]
  show (if rowGet row idf ∈ idsInOrder idf pre then _ else _) = _
  rw [if_pos h]

theorem idsInOrder_append_new (idf : String) (pre : List Row) (row : Row)
    (h : rowGet row idf ∉ idsInOrder idf pre) :
    idsInOrder idf (pre ++ [row]) = idsInOrder idf pre ++ [rowGet row idf] := by
  unfold idsInOrder
  rw [List.foldl_append]
  show (if rowGet row idf ∈ idsInOrder idf pre then _ else _) = _
  rw [if_neg h]

theorem groupRows_append (idf : String) (v : JsVal) (pre : List Row) (row : Row) :
    groupRows idf v (pre ++ [row]) =
      groupRows idf v pre ++ if rowGet row idf = v then [row] else [] := by
  unfold groupRows
  rw [List.filter_append]
  by_cases h : rowGet row idf = v
  · rw [if_pos h]
    simp [h]
  · rw [if_neg h]
    simp [h]

theorem groupRows_eq_nil (idf : String) (v : JsVal) (rows : List Row)
    (h : v ∉ idsInOrder idf rows) : groupRows idf v rows = [] := by
  unfold groupRows
  rw [List.filter_eq_nil_iff]
  intro r hr
  simp only [decide_eq_true_eq]
  intro hid
  exact h ((mem_idsInOrder idf v rows).2 ⟨r, hr, hid⟩)

theorem groupRows_ne_nil (idf : String) (v : JsVal) (rows : List Row)
    (h : v ∈ idsInOrder idf rows) : groupRows idf v rows ≠ [] := by
  obtain ⟨r, hr, hid⟩ := (mem_idsInOrder idf v rows).1 h
  intro hnil
  have : r ∈ groupRows idf v rows := List.mem_filter.2 ⟨hr, by simp [hid]⟩
  rw [hnil] at this
  exact List.not_mem_nil r this

theorem groupRows_head_mem (idf : String) (v : JsVal) (rows : List Row) (r0 : Row)
    (tl : List Row) (h : groupRows idf v rows = r0 :: tl) :
    r0 ∈ rows ∧ rowGet r0 idf = v := by
  have hmem : r0 ∈ groupRows idf v rows := h ▸ List.mem_cons_self r0 tl
  obtain ⟨hrows, hpred⟩ := List.mem_filter.1 hmem
  exact ⟨hrows, by simpa using hpred⟩

theorem buildGroup_single (r : Row) : buildGroup [r] = newGroup r := by
  unfold buildGroup newGroup
  apply List.map_congr_left
  intro k hk
  simp [hk]

theorem find_map_mem (idf : String) (ks : List String) (f : String → List JsVal)
    (h : idf ∈ ks) :
    (ks.map fun k => (k, f k)).find? (fun kv => kv.1 == idf) = some (idf, f idf) := by
  induction ks with
  | nil => cases h
  | cons k0 rest ih =>
    rw [List.map_cons, List.find?_cons]
    by_cases hk : k0 = idf
    · subst hk
      simp
    · have : ((k0, f k0).1 == idf) = false := by
        simp [hk]
      rw [this]
      rcases List.mem_cons.1 h with heq | hmem
      · exact absurd heq.symm hk
      · exact ih hmem

theorem groupGet_buildGroup (idf : String) (r0 : Row) (tl : List Row)
    (h : idf ∈ rowKeys r0) :
    groupGet (buildGroup (r0 :: tl)) idf =
      some (((r0 :: tl).filter fun r => decide (idf ∈ rowKeys r)).map fun r => rowGet r idf) := by
  unfold buildGroup groupGet
  rw [find_map_mem idf (rowKeys r0) _ h]

theorem pushKey_map (ks : List String) (f : String → List JsVal) (k0 : String) (v : JsVal)
    (hk : k0 ∈ ks) (hnd : ks.Nodup) :
    pushKey (ks.map fun k => (k, f k)) k0 v =
      some (ks.map fun k => (k, if k = k0 then f k ++ [v] else f k)) := by
  induction ks with
  | nil => cases hk
  | cons k1 rest ih =>
    rw [List.map_cons, pushKey]
    by_cases h1 : k1 = k0
    · rw [if_pos h1]
      subst h1
      have hrest : ∀ k ∈ rest, (k, f k) = (k, if k = k1 then f k ++ [v] else f k) := by
        intro k hkr
        have : k ≠ k1 := by
          intro heq
          subst heq
          exact (List.nodup_cons.1 hnd).1 hkr
        rw [if_neg this]
      refine congrArg some ?_
      rw [List.map_cons, if_pos rfl]
      exact congrArg (List.cons _) (List.map_congr_left hrest)
    · rw [if_neg h1]
      rcases List.mem_cons.1 hk with heq | hmem
      · exact absurd heq.symm h1
      · rw [ih hmem (List.nodup_cons.1 hnd).2]
        rw [List.map_cons]
        have : k1 ≠ k0 := h1
        simp [this]

theorem pushRowKeys_map (row : Row) (gks : List String) (hgnd : gks.Nodup) :
    ∀ (ks : List String) (f : String → List JsVal), ks.Nodup → (∀ k ∈ ks, k ∈ gks) →
    pushRowKeys row ks (gks.map fun k => (k, f k)) =
      some (gks.map fun k => (k, if k ∈ ks then f k ++ [rowGet row k] else f k)) := by
  intro ks
  induction ks with
  | nil =>
    intro f _ _
    simp [pushRowKeys]
  | cons k0 rest ih =>
    intro f hnd hsub
    rw [pushRowKeys,
      pushKey_map gks f k0 (rowGet row k0) (hsub k0 (List.mem_cons_self k0 rest)) hgnd]
    dsimp only
    rw [ih (fun k => if k = k0 then f k ++ [rowGet row k0] else f k)
      (List.nodup_cons.1 hnd).2 (fun k hk => hsub k (List.mem_cons_of_mem k0 hk))]
    congr 1
    apply List.map_congr_left
    intro k _
    by_cases hk0 : k = k0
    · subst hk0
      have hknr : k ∉ rest := (List.nodup_cons.1 hnd).1
      simp [hknr]
    · have hmemiff : (k ∈ k0 :: rest) ↔ k ∈ rest := by
        constructor
        · intro h
          rcases List.mem_cons.1 h with heq | hm
          · exact absurd heq hk0
          · exact hm
        · exact List.mem_cons_of_mem k0
      by_cases hkr : k ∈ rest
      · simp [hk0, hkr, hmemiff]
      · simp [hk0, hkr, hmemiff]

theorem groupRows_app (idf : String) (v : JsVal) (l1 l2 : List Row) :
    groupRows idf v (l1 ++ l2) = groupRows idf v l1 ++ groupRows idf v l2 := by
  unfold groupRows
  exact List.filter_append _ _

theorem pushRow_buildGroup (idf : String) (v : JsVal) (pre : List Row) (row : Row)
    (r0 : Row) (tl : List Row)
    (hg : groupRows idf v pre = r0 :: tl)
    (hnd0 : (rowKeys r0).Nodup) (hndrow : (rowKeys row).Nodup)
    (hsub : ∀ k ∈ rowKeys row, k ∈ rowKeys r0)
    (hidrow : rowGet row idf = v) :
    pushRow (buildGroup (groupRows idf v pre)) row =
      some (buildGroup (groupRows idf v (pre ++ [row]))) := by
  have h2 : groupRows idf v (pre ++ [row]) = r0 :: (tl ++ [row]) := by
    rw [groupRows_append idf v pre row, hg, hidrow, if_pos rfl]
    rfl
  rw [hg, h2]
  unfold pushRow
  show pushRowKeys row (rowKeys row) (buildGroup (r0 :: tl)) = _
  unfold buildGroup
  rw [pushRowKeys_map row (rowKeys r0) hnd0 (rowKeys row)
    (fun k => ((r0 :: tl).filter fun r => decide (k ∈ rowKeys r)).map fun r => rowGet r k)
    hndrow hsub]
  refine congrArg some (List.map_congr_left fun k _ => ?_)
  have hfl : (r0 :: (tl ++ [row])).filter (fun r => decide (k ∈ rowKeys r)) =
      ((r0 :: tl).filter fun r => decide (k ∈ rowKeys r)) ++
        ([row].filter fun r => decide (k ∈ rowKeys r)) := by
    show ((r0 :: tl) ++ [row]).filter _ = _
    exact List.filter_append _ _
  by_cases hk : k ∈ rowKeys row
  · rw [if_pos hk, hfl]
    have hone : [row].filter (fun r => decide (k ∈ rowKeys r)) = [row] := by simp [hk]
    rw [hone, List.map_append]
    simp
  · rw [if_neg hk, hfl]
    have hone : [row].filter (fun r => decide (k ∈ rowKeys r)) = [] := by simp [hk]
    rw [hone, List.append_nil]

theorem pushMatching_map (idf : String) (v : JsVal) (row : Row) (vs : List JsVal)
    (G G' : JsVal → GRow)
    (hname : ∀ v' ∈ vs, ∃ arr, groupGet (G v') idf = some arr ∧ arr.headD JsVal.undef = v')
    (hnan : v ≠ .nan)
    (hpush : ∀ v' ∈ vs, v' = v → pushRow (G v') row = some (G' v'))
    (hkeep : ∀ v' ∈ vs, v' ≠ v → G' v' = G v') :
    pushMatching idf v row (vs.map G) = .ok (vs.map G') := by
  induction vs with
  | nil => rfl
  | cons v' vs' ih =>
    obtain ⟨arr, harr, hhead⟩ := hname v' (List.mem_cons_self v' vs')
    rw [List.map_cons, pushMatching, harr]
    dsimp only
    have ihx := ih (fun w hw => hname w (List.mem_cons_of_mem v' hw))
      (fun w hw => hpush w (List.mem_cons_of_mem v' hw))
      (fun w hw => hkeep w (List.mem_cons_of_mem v' hw))
    by_cases heq : v' = v
    · have hcond : jsStrictEq v (arr.headD JsVal.undef) := by
        rw [hhead, heq]
        exact ⟨rfl, hnan⟩
      rw [if_pos hcond, hpush v' (List.mem_cons_self v' vs') heq, ihx]
      rfl
    · have hcond : ¬ jsStrictEq v (arr.headD JsVal.undef) := by
        rw [hhead]
        rintro ⟨hveq, -⟩
        exact heq hveq.symm
      rw [if_neg hcond]
      rw [ihx, ← hkeep v' (List.mem_cons_self v' vs') heq]
      rfl

theorem golStep_spec (idf : String) (pre : List Row) (row : Row)
    (H1pre : ∀ r ∈ pre, idf ∈ rowKeys r)
    (H2pre : ∀ r ∈ pre, (rowKeys r).Nodup)
    (H3row : rowGet row idf ≠ .nan)
    (H2row : (rowKeys row).Nodup)
    (Hsub : ∀ r0 tl, groupRows idf (rowGet row idf) pre = r0 :: tl →
      ∀ k ∈ rowKeys row, k ∈ rowKeys r0) :
    golStep idf ((idsInOrder idf pre).map (fun v => buildGroup (groupRows idf v pre)),
      idsInOrder idf pre) row =
      .ok ((idsInOrder idf (pre ++ [row])).map
        (fun v => buildGroup (groupRows idf v (pre ++ [row]))),
        idsInOrder idf (pre ++ [row])) := by
  unfold golStep
  dsimp only
  by_cases hmem : rowGet row idf ∈ idsInOrder idf pre
  · have hcond : ∃ e ∈ idsInOrder idf pre, jsStrictEq (rowGet row idf) e :=
      ⟨rowGet row idf, hmem, rfl, H3row⟩
    rw [if_pos hcond]
    have hname : ∀ v' ∈ idsInOrder idf pre, ∃ arr,
        groupGet (buildGroup (groupRows idf v' pre)) idf = some arr ∧
          arr.headD JsVal.undef = v' := by
      intro v' hv'
      obtain ⟨r0', tl', hgr⟩ :=
        List.exists_cons_of_ne_nil (groupRows_ne_nil idf v' pre hv')
      obtain ⟨hr0mem, hid0⟩ := groupRows_head_mem idf v' pre r0' tl' hgr
      rw [hgr, groupGet_buildGroup idf r0' tl' (H1pre r0' hr0mem)]
      refine ⟨_, rfl, ?_⟩
      have hflt : (r0' :: tl').filter (fun r => decide (idf ∈ rowKeys r)) =
          r0' :: tl'.filter (fun r => decide (idf ∈ rowKeys r)) := by
        rw [List.filter_cons, if_pos (by simp [H1pre r0' hr0mem])]
      rw [hflt, List.map_cons]
      simpa using hid0
    have hpush : ∀ v' ∈ idsInOrder idf pre, v' = rowGet row idf →
        pushRow (buildGroup (groupRows idf v' pre)) row =
          some (buildGroup (groupRows idf v' (pre ++ [row]))) := by
      intro v' hv' heq
      obtain ⟨r0', tl', hgr⟩ :=
        List.exists_cons_of_ne_nil (groupRows_ne_nil idf v' pre hv')
      obtain ⟨hr0mem, -⟩ := groupRows_head_mem idf v' pre r0' tl' hgr
      exact pushRow_buildGroup idf v' pre row r0' tl' hgr (H2pre r0' hr0mem) H2row
        (Hsub r0' tl' (heq ▸ hgr)) heq.symm
    have hkeep : ∀ v' ∈ idsInOrder idf pre, v' ≠ rowGet row idf →
        buildGroup (groupRows idf v' (pre ++ [row])) =
          buildGroup (groupRows idf v' pre) := by
      intro v' hv' hne
      rw [groupRows_append idf v' pre row, if_neg (fun h => hne h.symm), List.append_nil]
    rw [pushMatching_map idf (rowGet row idf) row (idsInOrder idf pre)
      (fun v' => buildGroup (groupRows idf v' pre))
      (fun v' => buildGroup (groupRows idf v' (pre ++ [row]))) hname H3row hpush hkeep]
    rw [idsInOrder_append_old idf pre row hmem]
  · have hcond : ¬ ∃ e ∈ idsInOrder idf pre, jsStrictEq (rowGet row idf) e := by
      rintro ⟨e, he, heq, -⟩
      exact hmem (heq ▸ he)
    rw [if_neg hcond, idsInOrder_append_new idf pre row hmem]
    refine congrArg Except.ok ?_
    refine Prod.ext ?_ rfl
    show (idsInOrder idf pre).map (fun v => buildGroup (groupRows idf v pre)) ++
        [newGroup row] = _
    rw [List.map_append]
    congr 1
    · refine List.map_congr_left fun v' hv' => ?_
      have hne : rowGet row idf ≠ v' := by
        intro h
        exact hmem (h ▸ hv')
      rw [groupRows_append idf v' pre row, if_neg hne, List.append_nil]
    · rw [List.map_singleton, groupRows_append idf (rowGet row idf) pre row, if_pos rfl,
        groupRows_eq_nil idf (rowGet row idf) pre hmem, List.nil_append, buildGroup_single]

theorem golAux_spec (idf : String) (rows : List Row)
    (H1 : ∀ r ∈ rows, idf ∈ rowKeys r) (H2 : ∀ r ∈ rows, (rowKeys r).Nodup)
    (H3 : ∀ r ∈ rows, rowGet r idf ≠ .nan)
    (H4 : ∀ r ∈ rows, ∀ r0 tl, groupRows idf (rowGet r idf) rows = r0 :: tl →
      ∀ k ∈ rowKeys r, k ∈ rowKeys r0) :
    ∀ (rest pre : List Row), rows = pre ++ rest →
    golAux idf rest
      ((idsInOrder idf pre).map (fun v => buildGroup (groupRows idf v pre)),
        idsInOrder idf pre) =
      .ok ((idsInOrder idf rows).map (fun v => buildGroup (groupRows idf v rows)),
        idsInOrder idf rows) := by
  intro rest
  induction rest with
  | nil =>
    intro pre hpre
    rw [List.append_nil] at hpre
    subst hpre
    rfl
  | cons row rest' ih =>
    intro pre hpre
    have hrowmem : row ∈ rows := by
      rw [hpre]
      exact List.mem_append_right pre (List.mem_cons_self row rest')
    have hsubd : ∀ r0 tl, groupRows idf (rowGet row idf) pre = r0 :: tl →
        ∀ k ∈ rowKeys row, k ∈ rowKeys r0 := by
      intro r0 tl hg k hk
      have hrows : groupRows idf (rowGet row idf) rows =
          r0 :: (tl ++ groupRows idf (rowGet row idf) (row :: rest')) := by
        rw [hpre, groupRows_app, hg]
        rfl
      exact H4 row hrowmem r0 _ hrows k hk
    have hstep := golStep_spec idf pre row
      (fun r hr => H1 r (hpre ▸ List.mem_append_left _ hr))
      (fun r hr => H2 r (hpre ▸ List.mem_append_left _ hr))
      (H3 row hrowmem) (H2 row hrowmem) hsubd
    rw [golAux, hstep]
    dsimp only
    exact ih (pre ++ [row]) (by rw [hpre, List.append_assoc]; rfl)

/-! ### Claims -/

/-- Claim C4, counterexample to the claim as stated: `constructSystem` on zero
stars and zero planets does not signal an error — it returns JS `undefined`
(the `subSystems[0]` of an empty array), here `Except.ok none`. -/
theorem claim_C4_counterexample : constructSystem 0 [] [] = .ok none := by
  simp [constructSystem, gather]

/-- Claim C4 (amended): when `constructSystem` is called with zero stars and
zero planets, it throws nothing and returns no System: it evaluates
`subSystems[0]` on the empty sub-system array and silently returns
`undefined`. -/
theorem claim_C4_amended (rand : ℝ) : constructSystem rand [] [] = .ok none := by
  simp [constructSystem, gather]

/-- Claim C5: constructing a `PlanetarySystem` whose direct planet list
contains a planet with `orbitalPeriod === 0` throws a `ReferenceError` (the
period-derivation branches call the undefined identifier `pow`, not
`Math.pow`), and for such a planet no orbital period is assigned and no
assumption string is recorded before the throw. -/
theorem claim_C5 (stars : List Star) (planets : List Planet)
    (subs : Option (List PSystem)) (rand : ℝ) (p : Planet)
    (hp : p ∈ planets) (h0 : p.orbitalPeriod = .num 0) :
    mkSystem rand stars planets subs = .error .referenceError ∧
      (fixPlanetPA (getStarMass stars subs) rand p).1.orbitalPeriod = p.orbitalPeriod ∧
      (fixPlanetPA (getStarMass stars subs) rand p).1.assumptions = p.assumptions := by
  refine ⟨?_, (fixPlanetPA_period0 _ rand p h0).2.1, (fixPlanetPA_period0 _ rand p h0).2.2⟩
  have herr := fixPAList_error_of_period0 (getStarMass stars subs) rand planets p hp h0
  simp [mkSystem, herr]

/-- Claim C5, witness: a concrete planet with zero recorded orbital period
makes the constructor throw, leaving period and assumptions untouched. -/
theorem claim_C5_witness :
    (⟨.str "p0", .str "A", .num 0, .num 1, .num 1, .num 1, .null, .num 0, .null, .null, .null,
        .num 0, .null, .num 1, []⟩ : Planet) ∈
      [(⟨.str "p0", .str "A", .num 0, .num 1, .num 1, .num 1, .null, .num 0, .null, .null, .null,
        .num 0, .null, .num 1, []⟩ : Planet)] ∧
    mkSystem 0 []
      [⟨.str "p0", .str "A", .num 0, .num 1, .num 1, .num 1, .null, .num 0, .null, .null, .null,
        .num 0, .null, .num 1, []⟩] none = .error .referenceError :=
  ⟨List.mem_singleton.2 rfl,
    (claim_C5 [] _ none 0 _ (List.mem_singleton.2 rfl) rfl).1⟩

/-- Claim C6, counterexample to the claim as stated: with both
`pl_orbsmax` and `pl_orbeccen` equal to `null` (absent), the constructed
planet's `semiMinorAxis` is the number `0`, not `null` — JS coerces `null`
to `0` inside `semiMajorAxis * Math.sqrt(1 - Math.pow(eccentricity, 2))`. -/
theorem claim_C6_counterexample :
    (makePlanet (fun k => if k = "pl_name" then .str "p" else .null) 0).semiMinorAxis
      = .num 0 ∧ (JsVal.num 0 ≠ .null) := by
  constructor
  · have h10 : ¬ ((1:ℝ) < 0) := by norm_num
    rw [makePlanet, fixMR_semiMinor]
    simp [jsMul, jsSub, mathPow, mathSqrt, toNumber, Real.zero_rpow, Real.sqrt_one, h10]
  · intro h
    exact JsVal.noConfusion h

/-- Claim C6 (amended): `semiMinorAxis` equals
`semiMajorAxis * sqrt(1 - eccentricity^2)` when both inputs are present as
numbers (with `e^2 ≤ 1`); when an input is `null` it is coerced to `0` in the
formula rather than making the result `null`: with a `null` axis the result
is the number `0`, and with only the eccentricity `null` the result is the
axis value itself. -/
theorem claim_C6_amended (data : String → JsVal) (rand : ℝ) :
    (∀ a e : ℝ, data "pl_orbsmax" = .num a → data "pl_orbeccen" = .num e → e ^ 2 ≤ 1 →
      (makePlanet data rand).semiMinorAxis = .num (a * Real.sqrt (1 - e ^ 2)))
    ∧ (data "pl_orbsmax" = .null → data "pl_orbeccen" = .null →
      (makePlanet data rand).semiMinorAxis = .num 0)
    ∧ (∀ e : ℝ, data "pl_orbsmax" = .null → data "pl_orbeccen" = .num e → e ^ 2 ≤ 1 →
      (makePlanet data rand).semiMinorAxis = .num 0)
    ∧ (∀ a : ℝ, data "pl_orbsmax" = .num a → data "pl_orbeccen" = .null →
      (makePlanet data rand).semiMinorAxis = .num a) := by
  have h10 : ¬ ((1:ℝ) < 0) := by norm_num
  refine ⟨?_, ?_, ?_, ?_⟩
  · intro a e h1 h2 he
    have hm : ¬ (1 - e ^ 2 < 0) := by linarith
    rw [makePlanet, fixMR_semiMinor]
    simp [h1, h2, mathPow_two, jsMul, jsSub, mathSqrt, toNumber, hm]
  · intro h1 h2
    rw [makePlanet, fixMR_semiMinor]
    simp [h1, h2, jsMul, jsSub, mathPow, mathSqrt, toNumber, Real.zero_rpow, Real.sqrt_one, h10]
  · intro e h1 h2 he
    have hm : ¬ (1 - e ^ 2 < 0) := by linarith
    rw [makePlanet, fixMR_semiMinor]
    simp [h1, h2, mathPow_two, jsMul, jsSub, mathSqrt, toNumber, hm]
  · intro a h1 h2
    rw [makePlanet, fixMR_semiMinor]
    simp [h1, h2, jsMul, jsSub, mathPow, mathSqrt, toNumber, Real.zero_rpow, Real.sqrt_one, h10]

/-- Claim C6, witness: with axis `2` and eccentricity `0` present, the
semi-minor axis is `2 * sqrt(1 - 0^2)`. -/
theorem claim_C6_witness :
    ((fun k => if k = "pl_orbsmax" then JsVal.num 2
        else if k = "pl_orbeccen" then JsVal.num 0 else JsVal.null) "pl_orbsmax" = JsVal.num 2)
    ∧ ((0:ℝ) ^ 2 ≤ 1)
    ∧ (makePlanet (fun k => if k = "pl_orbsmax" then JsVal.num 2
        else if k = "pl_orbeccen" then JsVal.num 0 else JsVal.null) 0).semiMinorAxis
      = .num (2 * Real.sqrt (1 - 0 ^ 2)) :=
  ⟨by simp, by norm_num,
    (claim_C6_amended _ 0).1 2 0 (by simp) (by simp) (by norm_num)⟩

/-- Claim C7: a planet whose mass and radius are both present as numbers is
left completely unchanged by `fixMassRadius` (no field modified, nothing
appended to `assumptions`), so a second run on the output is a no-op. -/
theorem claim_C7 (p : Planet) (rand rand' : ℝ) (x y : ℝ)
    (hm : p.mass = .num x) (hr : p.radius = .num y) :
    fixMassRadius p rand = p ∧
      fixMassRadius (fixMassRadius p rand) rand' = fixMassRadius p rand := by
  have h : ∀ r : ℝ, fixMassRadius p r = p := by
    intro r
    simp [fixMassRadius, hm, hr, jsLooseNull]
  exact ⟨h rand, by rw [h rand, h rand']⟩

/-- Claim C7, witness: a concrete complete planet is untouched and the repair
is idempotent on it. -/
theorem claim_C7_witness :
    ((⟨.str "p", .str "A", .num 1, .num 1, .num 1, .num 1, .null, .num 0, .null, .null, .null,
        .num 0, .null, .num 1, []⟩ : Planet).mass = .num 1) ∧
    fixMassRadius
      (⟨.str "p", .str "A", .num 1, .num 1, .num 1, .num 1, .null, .num 0, .null, .null, .null,
        .num 0, .null, .num 1, []⟩ : Planet) 0 =
      (⟨.str "p", .str "A", .num 1, .num 1, .num 1, .num 1, .null, .num 0, .null, .null, .null,
        .num 0, .null, .num 1, []⟩ : Planet) :=
  ⟨rfl, (claim_C7 _ 0 1 1 1 rfl rfl).1⟩

/-- Claim C9, counterexample to the claim as stated: a planet missing only
its semi-major axis (axis `=== 0`, period `1` present) has the string
"Missing orbital period" appended — the message names the present field,
not the missing one, and no "Missing semi-major axis" note is recorded. -/
theorem claim_C9_counterexample :
    (fixPlanetPA (.num 1) 0
        (⟨.str "p9", .str "A", .num 1, .num 0, .num 1, .num 1, .null, .num 0, .null, .null, .null,
          .num 0, .null, .num 1, []⟩ : Planet)).1.assumptions = ["Missing orbital period"] ∧
    (⟨.str "p9", .str "A", .num 1, .num 0, .num 1, .num 1, .null, .num 0, .null, .null, .null,
      .num 0, .null, .num 1, []⟩ : Planet).orbitalPeriod = .num 1 ∧
    (⟨.str "p9", .str "A", .num 1, .num 0, .num 1, .num 1, .null, .num 0, .null, .null, .null,
      .num 0, .null, .num 1, []⟩ : Planet).semiMajorAxis = .num 0 ∧
    "Missing semi-major axis" ∉
      (fixPlanetPA (.num 1) 0
        (⟨.str "p9", .str "A", .num 1, .num 0, .num 1, .num 1, .null, .num 0, .null, .null, .null,
          .num 0, .null, .num 1, []⟩ : Planet)).1.assumptions := by
  refine ⟨?_, rfl, rfl, ?_⟩ <;> simp [fixPlanetPA]

/-- Claim C9 (amended): the only fix-up branch that completes — semi-major
axis `=== 0` with a nonzero period — appends "Missing orbital period", naming
the field that was present rather than the missing axis; the branches for a
missing period throw the `pow` `ReferenceError` before appending anything, so
no planet ever receives a message matching its actually missing field. -/
theorem claim_C9_amended (M : JsVal) (rand : ℝ) (p : Planet) :
    (p.orbitalPeriod ≠ .num 0 → p.semiMajorAxis = .num 0 →
      (fixPlanetPA M rand p).2 = none ∧
        (fixPlanetPA M rand p).1.assumptions = p.assumptions ++ ["Missing orbital period"])
    ∧ (p.orbitalPeriod = .num 0 →
      (fixPlanetPA M rand p).2 = some .referenceError ∧
        (fixPlanetPA M rand p).1.assumptions = p.assumptions) := by
  constructor
  · intro h1 h2
    constructor <;> simp [fixPlanetPA, h1, h2]
  · intro h0
    exact ⟨(fixPlanetPA_period0 M rand p h0).1, (fixPlanetPA_period0 M rand p h0).2.2⟩

/-- Claim C9, witness: the amended behaviour at a concrete planet with axis
`0` and period `1`. -/
theorem claim_C9_witness :
    ((⟨.str "w9", .str "A", .num 1, .num 0, .num 1, .num 1, .null, .num 0, .null, .null, .null,
        .num 0, .null, .num 1, []⟩ : Planet).orbitalPeriod ≠ .num 0) ∧
    (fixPlanetPA (.num 1) 0
        (⟨.str "w9", .str "A", .num 1, .num 0, .num 1, .num 1, .null, .num 0, .null, .null, .null,
          .num 0, .null, .num 1, []⟩ : Planet)).1.assumptions =
      [] ++ ["Missing orbital period"] :=
  ⟨by simp, ((claim_C9_amended (.num 1) 0 _).1 (by simp) rfl).2⟩

/-- Claim C10: when both the mass key `pl_bmassj` and the radius key `pl_radj`
are absent (`undefined`, not `null`), the planet constructor's
`fixMassRadius` skips the both-missing branch (strict `=== null` fails for
`undefined`), takes the radius-only branch, sets the radius to NaN (a power of
`undefined`), leaves the mass `undefined`, and appends only
"Missing radius". -/
theorem claim_C10 (data : String → JsVal) (rand : ℝ)
    (h1 : data "pl_bmassj" = JsVal.undef) (h2 : data "pl_radj" = JsVal.undef) :
    (makePlanet data rand).radius = .nan ∧ (makePlanet data rand).mass = JsVal.undef ∧
      (makePlanet data rand).assumptions = ["Missing radius"] := by
  simp [makePlanet, fixMassRadius, h1, h2, jsLooseNull, jsLt, toNumber, mathPow]

/-- Claim C2: every `PlanetarySystem` returned by `constructSystem` (all
stellar masses being numbers) satisfies the recursive mass invariant: at every
node the stored `totalStarMass` is exactly the sum of the direct member
stars' masses plus the sum of the sub-systems' stored `totalStarMass`,
because `getStarMass` is evaluated once per constructor call after all
sub-systems are built. -/
theorem claim_C2 (rand : ℝ) (stars : List Star) (planets : List Planet) (sys : PSystem)
    (hm : allMassesNum stars)
    (h : constructSystem rand stars planets = .ok (some sys)) : MassInv sys := by
  unfold constructSystem at h
  rcases hg : gather rand planets stars with e | ⟨subs, bins, lones⟩
  · rw [hg] at h
    exact Except.noConfusion h
  · rw [hg] at h
    dsimp only at h
    by_cases hcond : bins.length ≠ 0 ∨ lones.length ≠ 0 ∨ subs.length > 0
    · rw [if_pos hcond] at h
      rcases hms : mkSystem rand lones bins (some subs) with e | top
      · rw [hms] at h
        exact Except.noConfusion h
      · rw [hms] at h
        simp only [Except.ok.injEq, Option.some.injEq] at h
        subst h
        obtain ⟨hsubs, hlones⟩ := gather_ok_facts rand planets stars subs bins lones hg hm
        obtain ⟨ps', hfix, rfl⟩ := mkSystem_ok_shape _ _ _ _ _ hms
        have hsm := getStarMass_num lones (some subs) hlones
          (by
            intro c hcm
            exact (hsubs c (by simpa [subsListD] using hcm)).2)
        exact MassInv.intro _ _ _ _ (fun c hcm => (hsubs c (by simpa [subsListD] using hcm)).1) hsm
    · rw [if_neg hcond] at h
      simp at h

/-- Claim C2, witness: one star of mass 1 with one hosted planet; the
constructed tree satisfies the mass invariant at each of its two nodes. -/
theorem claim_C2_witness :
    allMassesNum [⟨.str "S", .str "A", .num 1, .num 1, .num 1, .null, .null, .num 1⟩] ∧
    constructSystem 0
      [⟨.str "S", .str "A", .num 1, .num 1, .num 1, .null, .null, .num 1⟩]
      [⟨.str "p1", .str "A", .num 1, .num 1, .num 1, .num 1, .null, .num 0, .null, .null, .null,
        .num 0, .null, .num 1, []⟩] =
      .ok (some (.mk [] []
        (some [.mk [⟨.str "S", .str "A", .num 1, .num 1, .num 1, .null, .null, .num 1⟩]
          [⟨.str "p1", .str "A", .num 1, .num 1, .num 1, .num 1, .null, .num 0, .null, .null,
            .null, .num 0, .null, .num 1, []⟩] none (.num 1)])
        (.num 1))) ∧
    MassInv (.mk [] []
      (some [.mk [⟨.str "S", .str "A", .num 1, .num 1, .num 1, .null, .null, .num 1⟩]
        [⟨.str "p1", .str "A", .num 1, .num 1, .num 1, .num 1, .null, .num 0, .null, .null,
          .null, .num 0, .null, .num 1, []⟩] none (.num 1)])
      (.num 1)) := by
  refine ⟨fun s hs => ?_, ?_, ?_⟩
  · rcases List.mem_singleton.1 hs with rfl
    exact ⟨1, rfl⟩
  · simp [constructSystem, gather, mkSystem, fixPAList, fixPlanetPA, orbitPlanet, getStarMass,
      isSingleOf, isBinaryOf, jsStrictEq, jsTruthy, jsAdd, toNumber, jsLooseNull,
      PSystem.totalStarMass]
  · exact claim_C2 0
      [⟨.str "S", .str "A", .num 1, .num 1, .num 1, .null, .null, .num 1⟩]
      [⟨.str "p1", .str "A", .num 1, .num 1, .num 1, .num 1, .null, .num 0, .null, .null, .null,
        .num 0, .null, .num 1, []⟩] _
      (fun s hs => by
        rcases List.mem_singleton.1 hs with rfl
        exact ⟨1, rfl⟩)
      (by
        simp [constructSystem, gather, mkSystem, fixPAList, fixPlanetPA, orbitPlanet, getStarMass,
          isSingleOf, isBinaryOf, jsStrictEq, jsTruthy, jsAdd, toNumber, jsLooseNull,
          PSystem.totalStarMass])

/-- Claim C10, witness: the record with every key absent. -/
theorem claim_C10_witness :
    ((fun _ => JsVal.undef) "pl_bmassj" = JsVal.undef) ∧
    (makePlanet (fun _ => JsVal.undef) 0).radius = .nan ∧
    (makePlanet (fun _ => JsVal.undef) 0).mass = JsVal.undef ∧
    (makePlanet (fun _ => JsVal.undef) 0).assumptions = ["Missing radius"] :=
  ⟨rfl, claim_C10 (fun _ => JsVal.undef) 0 rfl rfl⟩

/-- Claim C1, counterexample to the claim as stated: a planet whose
`hostName` ("B") matches no star in the input is dropped — `constructSystem`
succeeds, but the planet appears nowhere in the returned tree. -/
theorem claim_C1_counterexample :
    constructSystem 0
      [⟨.str "S", .str "A", .num 1, .num 1, .num 1, .null, .null, .num 1⟩]
      [⟨.str "q", .str "B", .num 1, .num 1, .num 1, .num 1, .null, .num 0, .null, .null, .null,
        .num 0, .null, .num 1, []⟩] =
      .ok (some (.mk [⟨.str "S", .str "A", .num 1, .num 1, .num 1, .null, .null, .num 1⟩]
        [] (some []) (.num 1))) ∧
    countName (.str "q")
      (treePlanets (.mk [⟨.str "S", .str "A", .num 1, .num 1, .num 1, .null, .null, .num 1⟩]
        [] (some []) (.num 1))) = 0 := by
  constructor
  · simp [constructSystem, gather, mkSystem, fixPAList, fixPlanetPA, orbitPlanet, getStarMass,
      isSingleOf, isBinaryOf, jsStrictEq, jsTruthy, jsAdd, toNumber, jsLooseNull,
      PSystem.totalStarMass]
  · simp [treePlanets, treePlanetsList, countName]

/-- Claim C1 (amended): for a successful `constructSystem` run, an input
planet with a unique `name` whose `orbitBinary` is `0` or truthy appears in
the returned tree exactly as many times as there are input stars whose
`hostName` strictly equals its `hostName`: exactly once when exactly one star
matches (circumbinary planets at the top level, single-star planets inside
that star's sub-system), and zero times — silently dropped — when no star
matches.  (A planet whose `orbitBinary` is neither `0` nor truthy, e.g.
`null`, is dropped even when its host matches.) -/
theorem claim_C1_amended (rand : ℝ) (stars : List Star) (planets : List Planet)
    (sys : PSystem) (p : Planet)
    (h : constructSystem rand stars planets = .ok (some sys))
    (hp : p ∈ planets) (h1 : countName p.name planets = 1)
    (hflag : p.orbitBinary = .num 0 ∨ jsTruthy p.orbitBinary) :
    countName p.name (treePlanets sys) =
      stars.countP fun s => decide (jsStrictEq p.hostName s.hostName) := by
  unfold constructSystem at h
  rcases hg : gather rand planets stars with e | ⟨subs, bins, lones⟩
  · rw [hg] at h
    exact Except.noConfusion h
  · rw [hg] at h
    dsimp only at h
    by_cases hcond : bins.length ≠ 0 ∨ lones.length ≠ 0 ∨ subs.length > 0
    · rw [if_pos hcond] at h
      rcases hms : mkSystem rand lones bins (some subs) with e | top
      · rw [hms] at h
        exact Except.noConfusion h
      · rw [hms] at h
        simp only [Except.ok.injEq, Option.some.injEq] at h
        subst h
        obtain ⟨ps', hfix, rfl⟩ := mkSystem_ok_shape _ _ _ _ _ hms
        have htree : countName p.name (treePlanets (.mk lones (ps'.map orbitPlanet)
            (some subs) (getStarMass lones (some subs)))) =
            countName p.name (treePlanetsList subs) + countName p.name bins := by
          show countName p.name (_ ++ _) = _
          unfold countName
          rw [List.countP_append]
          have : (ps'.map orbitPlanet).countP (fun q => decide (q.name = p.name)) =
              bins.countP fun q => decide (q.name = p.name) := by
            have hh := countName_map_orbit ps' p.name
            have hh2 := fixPAList_countName _ _ _ _ p.name hfix
            unfold countName at hh hh2
            omega
          omega
        rw [htree, gather_count rand planets p.name stars subs bins lones hg]
        have hmap : (stars.map fun s =>
            countName p.name (planets.filter fun q => decide (isSingleOf s q)) +
              countName p.name (planets.filter fun q => decide (isBinaryOf s q))) =
            stars.map fun s => if jsStrictEq p.hostName s.hostName then 1 else 0 :=
          List.map_congr_left fun s _ => star_indicator planets p s h1 hp hflag
        rw [hmap, sum_indicator]
    · rw [if_neg hcond] at h
      simp at h

/-- Claim C1, witness: one star "H" and one hosted single-star planet "q1";
the planet appears exactly once in the tree, matching the one star. -/
theorem claim_C1_witness :
    constructSystem 0
      [⟨.str "W", .str "H", .num 1, .num 1, .num 1, .null, .null, .num 1⟩]
      [⟨.str "q1", .str "H", .num 1, .num 1, .num 1, .num 1, .null, .num 0, .null, .null, .null,
        .num 0, .null, .num 1, []⟩] =
      .ok (some (.mk [] []
        (some [.mk [⟨.str "W", .str "H", .num 1, .num 1, .num 1, .null, .null, .num 1⟩]
          [⟨.str "q1", .str "H", .num 1, .num 1, .num 1, .num 1, .null, .num 0, .null, .null,
            .null, .num 0, .null, .num 1, []⟩] none (.num 1)])
        (.num 1))) ∧
    countName (JsVal.str "q1")
      [(⟨.str "q1", .str "H", .num 1, .num 1, .num 1, .num 1, .null, .num 0, .null, .null, .null,
        .num 0, .null, .num 1, []⟩ : Planet)] = 1 ∧
    countName (JsVal.str "q1")
      (treePlanets (.mk [] []
        (some [.mk [⟨.str "W", .str "H", .num 1, .num 1, .num 1, .null, .null, .num 1⟩]
          [⟨.str "q1", .str "H", .num 1, .num 1, .num 1, .num 1, .null, .num 0, .null, .null,
            .null, .num 0, .null, .num 1, []⟩] none (.num 1)])
        (.num 1))) =
      [(⟨.str "W", .str "H", .num 1, .num 1, .num 1, .null, .null, .num 1⟩ : Star)].countP
        fun s => decide (jsStrictEq (JsVal.str "H") s.hostName) := by
  have heval : constructSystem 0
      [⟨.str "W", .str "H", .num 1, .num 1, .num 1, .null, .null, .num 1⟩]
      [⟨.str "q1", .str "H", .num 1, .num 1, .num 1, .num 1, .null, .num 0, .null, .null, .null,
        .num 0, .null, .num 1, []⟩] =
      .ok (some (.mk [] []
        (some [.mk [⟨.str "W", .str "H", .num 1, .num 1, .num 1, .null, .null, .num 1⟩]
          [⟨.str "q1", .str "H", .num 1, .num 1, .num 1, .num 1, .null, .num 0, .null, .null,
            .null, .num 0, .null, .num 1, []⟩] none (.num 1)])
        (.num 1))) := by
    simp [constructSystem, gather, mkSystem, fixPAList, fixPlanetPA, orbitPlanet, getStarMass,
      isSingleOf, isBinaryOf, jsStrictEq, jsTruthy, jsAdd, toNumber, jsLooseNull,
      PSystem.totalStarMass]
  refine ⟨heval, by simp [countName], ?_⟩
  exact claim_C1_amended 0
    [⟨.str "W", .str "H", .num 1, .num 1, .num 1, .null, .null, .num 1⟩]
    [⟨.str "q1", .str "H", .num 1, .num 1, .num 1, .num 1, .null, .num 0, .null, .null, .null,
      .num 0, .null, .num 1, []⟩] _ _
    heval (List.mem_singleton.2 rfl) (by simp [countName]) (Or.inl rfl)

/-- Claim C3, evaluation at the failing input: with no lone stars, no
circumbinary planets, and exactly one sub-system, `constructSystem` does not
return the sub-system — the condition `subSystems.length > 0` sends it
through the wrapping branch, so it returns an otherwise-empty parent whose
`subSystems` list holds the sub-system.  The unwrap branch `return
subSystems[0]` is reachable only when all three collections are empty. -/
theorem claim_C3_code_eval :
    constructSystem 0
      [⟨.str "S3", .str "C", .num 1, .num 1, .num 1, .null, .null, .num 1⟩]
      [⟨.str "pc", .str "C", .num 1, .num 1, .num 1, .num 1, .null, .num 0, .null, .null, .null,
        .num 0, .null, .num 1, []⟩] =
      .ok (some (.mk [] []
        (some [.mk [⟨.str "S3", .str "C", .num 1, .num 1, .num 1, .null, .null, .num 1⟩]
          [⟨.str "pc", .str "C", .num 1, .num 1, .num 1, .num 1, .null, .num 0, .null, .null,
            .null, .num 0, .null, .num 1, []⟩] none (.num 1)])
        (.num 1))) ∧
    (PSystem.mk [] []
        (some [.mk [⟨.str "S3", .str "C", .num 1, .num 1, .num 1, .null, .null, .num 1⟩]
          [⟨.str "pc", .str "C", .num 1, .num 1, .num 1, .num 1, .null, .num 0, .null, .null,
            .null, .num 0, .null, .num 1, []⟩] none (.num 1)])
        (.num 1)) ≠
      .mk [⟨.str "S3", .str "C", .num 1, .num 1, .num 1, .null, .null, .num 1⟩]
        [⟨.str "pc", .str "C", .num 1, .num 1, .num 1, .num 1, .null, .num 0, .null, .null,
          .null, .num 0, .null, .num 1, []⟩] none (.num 1) := by
  constructor
  · simp [constructSystem, gather, mkSystem, fixPAList, fixPlanetPA, orbitPlanet, getStarMass,
      isSingleOf, isBinaryOf, jsStrictEq, jsTruthy, jsAdd, toNumber, jsLooseNull,
      PSystem.totalStarMass]
  · intro hcontra
    simp at hcontra

/-- Claim C8 (amended): for rows that all carry the identifier field (with
duplicate-free keys and non-NaN identifiers) and whose field sets are
contained in the field set of the first row of their group, `getObjectLists`
groups the rows by identifier in first-seen order; each group's keys are
exactly the first row's field names, and each key's value is the ordered
array of that field's values across only those of the group's rows that
contain the field — a row lacking the field contributes nothing, with no
`null` placeholder, so the array's length is the number of group rows
containing the field, not the group's row count.  (A later row with a field
its group object lacks makes `objectList[field].push` throw a TypeError.) -/
theorem claim_C8_amended (rows : List Row) (idf : String)
    (H1 : ∀ r ∈ rows, idf ∈ rowKeys r)
    (H2 : ∀ r ∈ rows, (rowKeys r).Nodup)
    (H3 : ∀ r ∈ rows, rowGet r idf ≠ .nan)
    (H4 : ∀ r ∈ rows, ∀ r0 tl, groupRows idf (rowGet r idf) rows = r0 :: tl →
      ∀ k ∈ rowKeys r, k ∈ rowKeys r0) :
    getObjectLists rows idf =
      .ok ((idsInOrder idf rows).map fun v => buildGroup (groupRows idf v rows)) := by
  unfold getObjectLists
  have h : golAux idf rows ([], []) =
      .ok ((idsInOrder idf rows).map (fun v => buildGroup (groupRows idf v rows)),
        idsInOrder idf rows) :=
    golAux_spec idf rows H1 H2 H3 H4 rows [] rfl
  rw [h]

/-- Claim C8, counterexample to the claim as stated: grouping the rows
`{id:"a", x:1}` and `{id:"a"}` yields a group whose `x` array is `[1]` — the
second row, which lacks `x`, contributes no `null`, so the array's length is
1, not the group's row count 2 as the claim requires. -/
theorem claim_C8_counterexample :
    getObjectLists [[("id", .str "a"), ("x", .num 1)], [("id", .str "a")]] "id" =
      .ok [[("id", [.str "a", .str "a"]), ("x", [.num 1])]] ∧
    groupGet [("id", [JsVal.str "a", JsVal.str "a"]), ("x", [JsVal.num 1])] "x" =
      some [.num 1] ∧
    (some [JsVal.num 1] ≠ some [JsVal.num 1, JsVal.null]) := by
  refine ⟨?_, rfl, by simp⟩
  simp [getObjectLists, golAux, golStep, pushMatching, pushRow, pushRowKeys, pushKey,
    newGroup, rowGet, rowKeys, groupGet, jsStrictEq, idsInOrder]

/-- Claim C8, witness: two rows with identifier "b" and identical key sets
collapse into one group computed by the amended specification. -/
theorem claim_C8_witness :
    (∀ r ∈ [[("id", JsVal.str "b")], [("id", JsVal.str "b")]], "id" ∈ rowKeys r) ∧
    getObjectLists [[("id", JsVal.str "b")], [("id", JsVal.str "b")]] "id" =
      .ok ((idsInOrder "id" [[("id", JsVal.str "b")], [("id", JsVal.str "b")]]).map
        fun v => buildGroup
          (groupRows "id" v [[("id", JsVal.str "b")], [("id", JsVal.str "b")]])) := by
  have hmemall : ∀ r ∈ [[("id", JsVal.str "b")], [("id", JsVal.str "b")]],
      r = [("id", JsVal.str "b")] := by
    intro r hr
    rcases List.mem_cons.1 hr with rfl | hr2
    · rfl
    · rcases List.mem_cons.1 hr2 with rfl | hr3
      · rfl
      · exact absurd hr3 (List.not_mem_nil r)
  constructor
  · intro r hr
    rw [hmemall r hr]
    simp [rowKeys]
  · refine claim_C8_amended _ _ ?_ ?_ ?_ ?_
    · intro r hr
      rw [hmemall r hr]
      simp [rowKeys]
    · intro r hr
      rw [hmemall r hr]
      simp [rowKeys]
    · intro r hr
      rw [hmemall r hr]
      simp [rowGet]
    · intro r hr r0 tl hg k hk
      have hr' := hmemall r hr
      subst hr'
      have hrows : groupRows "id" (rowGet [("id", JsVal.str "b")] "id")
          [[("id", JsVal.str "b")], [("id", JsVal.str "b")]] =
          [[("id", JsVal.str "b")], [("id", JsVal.str "b")]] := by
        simp [groupRows, rowGet]
      rw [hrows] at hg
      injection hg with h1 h2
      subst h1
      exact hk
end

end SolarGen
